import Mathlib

/-!
Verification development for a YouTube-downloader HTTP backend (`server.js`).

The development shallow-embeds the pure and state-passing logic of the
server: filename sanitization, the quality-to-format-selector mapping,
the video-info cache (`videoInfoCache` / `getVideoInfo`), the cleanup
sweeps over the downloads directory, the error-message mapping of the
`catch` blocks, the request-validation step of every endpoint, and the
download-timeout handler.  External-process execution (`yt-dlp` via
`exec`/`execPromise`) together with the JSON parsing of its stdout is
modelled as an oracle `String → Except String _` giving, per URL, the
outcome of lines 68-109 (resp. 147-188) of `server.js`; invocation
counts record how many times that boundary is crossed.  Machine time
(`Date.now()`) is an explicit natural-number parameter.
-/

/-! ### Basic string operations (JS `startsWith` / `endsWith` / `includes`) -/

/-- The test `listStartsWith s p` is true when `p` is an initial segment of
`s` (JS `String.prototype.startsWith` on exploded strings). -/
def listStartsWith : List Char → List Char → Bool
  | _, [] => true
  | [], _ :: _ => false
  | c :: cs, p :: ps => c == p && listStartsWith cs ps

/-- The test `listContainsSub pat s` is true when `pat` occurs contiguously
in `s` (JS `String.prototype.includes` on exploded strings). -/
def listContainsSub (pat : List Char) : List Char → Bool
  | [] => listStartsWith [] pat
  | c :: rest => listStartsWith (c :: rest) pat || listContainsSub pat rest

/-- JS `s.startsWith(p)`. -/
def strStartsWith (s p : String) : Bool := listStartsWith s.data p.data

/-- JS `s.endsWith(p)`. -/
def strEndsWith (s p : String) : Bool := listStartsWith s.data.reverse p.data.reverse

/-- JS `s.includes(p)`. -/
def strContains (s p : String) : Bool := listContainsSub p.data s.data

/-! ### `sanitizeFilename` (server.js lines 44-47)

```js
const sanitizeFilename = (filename) => {
    return filename.replace(/[^\ws.-]/gi, '').replace(/\s+/g, '_');
};
```
(the first character class is `[^\w\s.-]`; the doc string above cannot
show a backslash before the `s`).  JS `\w` is `[A-Za-z0-9_]`; JS `\s` is
the Unicode whitespace set fixed by the ECMAScript standard. -/

/-- JS regex `\w`: ASCII letters, digits and underscore. -/
def wordChar (c : Char) : Bool :=
  ('a' ≤ c && c ≤ 'z') || ('A' ≤ c && c ≤ 'Z') || ('0' ≤ c && c ≤ '9') || c == '_'

/-- The character set matched by the JS regex class `\s` (ECMA-262
WhiteSpace ∪ LineTerminator). -/
def spaceChars : List Char :=
  ['\u0009', '\u000a', '\u000b', '\u000c', '\u000d', '\u0020', '\u00a0',
   '\u1680', '\u2000', '\u2001', '\u2002', '\u2003', '\u2004', '\u2005',
   '\u2006', '\u2007', '\u2008', '\u2009', '\u200a', '\u2028', '\u2029',
   '\u202f', '\u205f', '\u3000', '\ufeff']

/-- JS regex `\s` as a Boolean predicate. -/
def spaceChar (c : Char) : Bool := spaceChars.contains c

/-- A character surviving the first replace of `sanitizeFilename`:
the complement of the class `[^` `\w\s.-]`. -/
def keepChar (c : Char) : Bool :=
  wordChar c || spaceChar c || c == '.' || c == '-'

/-- One pass of `.replace(/\s+/g, '_')`: each maximal run of whitespace
becomes a single underscore.  The Boolean argument records whether the
previous character was part of a whitespace run. -/
def collapseWs : Bool → List Char → List Char
  | _, [] => []
  | prevWs, c :: cs =>
    if spaceChar c then
      if prevWs then collapseWs true cs
      else '_' :: collapseWs true cs
    else c :: collapseWs false cs

/-- `sanitizeFilename` (server.js lines 44-47): delete every character
outside `\w`, whitespace, `.` and `-`, then collapse whitespace runs to
single underscores. -/
def sanitizeFilename (filename : String) : String :=
  ⟨collapseWs false (filename.data.filter keepChar)⟩

/-! ### Quality-selector mapping (server.js lines 264-287, 470-493, 705-725)

The same `if`/`else if` chain appears verbatim in the `/api/download/video`
handler, in `handleVideoDownload` and in `handlePlaylistDownload`. -/

/-- The quality-to-format-selector chain shared by the download handlers. -/
def formatSelector (quality : String) : String :=
  if quality = "360p" ∨ quality = "240p" ∨ quality = "144p" then
    "18"
  else if quality = "4k" then
    "313+140/401+140/bestvideo[height<=2160]+bestaudio"
  else if quality = "1440p" then
    "271+140/400+140/bestvideo[height<=1440]+bestaudio"
  else if quality = "1080p" then
    "137+140/248+140/399+140/bestvideo[height<=1080]+bestaudio"
  else if quality = "720p" then
    "136+140/247+140/398+140/bestvideo[height<=720]+bestaudio"
  else if quality = "480p" then
    "135+140/244+140/397+140/bestvideo[height<=480]+bestaudio"
  else if quality = "highest" then
    "136+140/247+140/398+140/bestvideo[height<=720]+bestaudio"
  else
    "136+140/247+140/398+140/bestvideo[height<=720]+bestaudio"

/-- The format chain of the `/api/download/playlist` route (server.js
lines 818-825), which differs from the shared chain above. -/
def playlistRouteFormatSelector (quality : String) : String :=
  if quality = "4k" then
    "bestvideo[height<=2160][ext=mp4]+bestaudio[ext=m4a]/bestvideo[height<=2160]+bestaudio/best[height<=2160]"
  else if quality = "1440p" then
    "bestvideo[height<=1440][ext=mp4]+bestaudio[ext=m4a]/bestvideo[height<=1440]+bestaudio/best[height<=1440]"
  else if quality = "1080p" then
    "bestvideo[height<=1080][ext=mp4]+bestaudio[ext=m4a]/bestvideo[height<=1080]+bestaudio/best[height<=1080]"
  else if quality = "720p" then
    "bestvideo[height<=720][ext=mp4]+bestaudio[ext=m4a]/bestvideo[height<=720]+bestaudio/best[height<=720]"
  else if quality = "480p" then
    "bestvideo[height<=480][ext=mp4]+bestaudio[ext=m4a]/bestvideo[height<=480]+bestaudio/best[height<=480]"
  else if quality = "360p" then
    "bestvideo[height<=360][ext=mp4]+bestaudio[ext=m4a]/bestvideo[height<=360]+bestaudio/best[height<=360]"
  else if quality = "highest" then
    "bestvideo[ext=mp4]+bestaudio[ext=m4a]/bestvideo+bestaudio/best"
  else
    "best[ext=mp4]/best"

example : sanitizeFilename "My Video: Part 1!" = "My_Video_Part_1" := by decide

example : formatSelector "4k" = "313+140/401+140/bestvideo[height<=2160]+bestaudio" := by decide

/-! ### Directory state and the cleanup sweeps

A downloads directory is modelled as a list of named files with byte
sizes (`fs.readdirSync` + `fs.statSync(..).size`); `fs.unlinkSync`
removes an entry by name.  Deletion failures are logged and ignored in
the source, so a sweep's effect on the directory is exactly the removal
of the entries it targets. -/

/-- A filesystem entry of the downloads directory: name and byte size. -/
structure FileEntry where
  name : String
  size : Nat
deriving DecidableEq

/-- The temp-file test of `cleanupTempFiles` (server.js lines 309-330):
the name must contain the sanitized title and one of the fragment /
partial / non-final-container markers. -/
def isTempName (sanitizedTitle name : String) : Bool :=
  strContains name sanitizedTitle &&
    (strContains name ".temp" || strContains name ".part" ||
     strContains name ".webm" || strContains name ".m4a" ||
     strContains name ".f140" || strContains name ".f313" ||
     strContains name ".f401" || strContains name ".f137" ||
     strContains name ".f136" || strContains name ".f135" ||
     strContains name ".f244" || strContains name ".f247" ||
     strContains name ".f248" || strContains name ".f271" ||
     strContains name ".f398" || strContains name ".f399" ||
     strContains name ".f400" ||
     (strContains name ".mp4" && !(strEndsWith name ".mp4")))

/-- One pass of `cleanupTempFiles` (server.js lines 306-343): delete every
entry whose name passes the temp-file test. -/
def cleanupTempFiles (sanitizedTitle : String) (dir : List FileEntry) : List FileEntry :=
  dir.filter (fun e => !(isTempName sanitizedTitle e.name))

/-- The final-candidate test of the final cleanup pass (server.js lines
354-356): name starts with the sanitized title and ends in `.mp4`. -/
def isFinalMp4 (sanitizedTitle name : String) : Bool :=
  strStartsWith name sanitizedTitle && strEndsWith name ".mp4"

/-- The remaining-file test of the final cleanup pass (server.js lines
380-382): name contains the sanitized title and does not end in `.mp4`. -/
def isRemainingNonMp4 (sanitizedTitle name : String) : Bool :=
  strContains name sanitizedTitle && !(strEndsWith name ".mp4")

/-- The descending-size order used by `fileStats.sort((a, b) => b.size - a.size)`. -/
def sizeGE (a b : FileEntry) : Prop := b.size ≤ a.size

instance : DecidableRel sizeGE := fun a b => Nat.decLe b.size a.size

instance : IsTotal FileEntry sizeGE :=
  ⟨fun a b => Nat.le_total b.size a.size⟩

instance : IsTrans FileEntry sizeGE :=
  ⟨fun _ _ _ hab hbc => Nat.le_trans hbc hab⟩

/-- JS `Array.prototype.sort` with comparator `(a, b) => b.size - a.size`:
a stable sort by descending size (V8's sort is stable; stable sorting by a
total preorder determines the output uniquely, here realized by insertion
sort). -/
def sortBySizeDesc (l : List FileEntry) : List FileEntry :=
  List.insertionSort sizeGE l

/-- The `finalMP4Files` selection of the final cleanup pass (server.js
lines 354-356). -/
def finalMP4Files (sanitizedTitle : String) (dir : List FileEntry) : List FileEntry :=
  dir.filter (fun e => isFinalMp4 sanitizedTitle e.name)

/-- The names unlinked by the multiple-candidates branch of the final
cleanup pass (server.js lines 359-377): when more than one final `.mp4`
candidate exists, everything after the first entry of the size-descending
stable sort. -/
def removedSmallerNames (sanitizedTitle : String) (dir : List FileEntry) : List String :=
  if 1 < (finalMP4Files sanitizedTitle dir).length then
    ((sortBySizeDesc (finalMP4Files sanitizedTitle dir)).drop 1).map FileEntry.name
  else []

/-- The names unlinked by the remaining-files branch of the final cleanup
pass (server.js lines 380-391). -/
def removedNonMp4Names (sanitizedTitle : String) (dir : List FileEntry) : List String :=
  (dir.filter (fun e => isRemainingNonMp4 sanitizedTitle e.name)).map FileEntry.name

/-- The final cleanup pass (server.js lines 351-395): among the entries
starting with the sanitized title and ending in `.mp4`, when more than one
exists keep only the largest (first of the size-descending stable sort)
and delete the rest; then delete every entry containing the sanitized
title that does not end in `.mp4`. -/
def finalCleanupPass (sanitizedTitle : String) (dir : List FileEntry) : List FileEntry :=
  dir.filter (fun e =>
    !((removedSmallerNames sanitizedTitle dir).contains e.name) &&
    !((removedNonMp4Names sanitizedTitle dir).contains e.name))

example :
    finalCleanupPass "title"
      [⟨"title.webm", 5⟩, ⟨"title.f140.m4a", 3⟩, ⟨"title.mp4", 100⟩] =
      [⟨"title.mp4", 100⟩] := by decide

example :
    finalCleanupPass "title"
      [⟨"title.mp4", 10⟩, ⟨"title.f136.mp4", 7⟩, ⟨"unrelated.txt", 1⟩] =
      [⟨"title.mp4", 10⟩, ⟨"unrelated.txt", 1⟩] := by decide

/-! ### The video-info cache (server.js lines 12-14, 50-141)

`videoInfoCache` is a JS `Map` from URL strings to `{ data, timestamp }`
records; `Map.set` replaces the entry of an existing key in place and
appends a new key at the end.  It is modelled as an association list with
exactly that replace-or-append update. -/

/-- The payload cached per URL (server.js lines 103-109). -/
structure VideoInfo where
  title : String
  duration : Nat
  thumbnail : String
  uploader : String
  view_count : Nat
deriving DecidableEq

/-- A `videoInfoCache` record: `{ data: videoInfo, timestamp: Date.now() }`. -/
structure CacheEntry where
  data : VideoInfo
  timestamp : Nat
deriving DecidableEq

/-- The `videoInfoCache` map, as an association list. -/
abbrev Cache := List (String × CacheEntry)

/-- JS `Map.prototype.get`. -/
def mapGet (k : String) : Cache → Option CacheEntry
  | [] => none
  | (k', v) :: rest => if k' = k then some v else mapGet k rest

/-- JS `Map.prototype.set`: replace in place, or append a new key. -/
def mapSet (k : String) (v : CacheEntry) : Cache → Cache
  | [] => [(k, v)]
  | (k', v') :: rest => if k' = k then (k, v) :: rest else (k', v') :: mapSet k v rest

/-- Keys of the cache. -/
def cacheKeys (c : Cache) : List String := c.map Prod.fst

/-- `CACHE_DURATION` (server.js line 14): 5 minutes in milliseconds. -/
def CACHE_DURATION : Nat := 5 * 60 * 1000

/-- The playlist-URL test of server.js lines 63 and 229:
`url.includes('playlist') || url.includes('list=')`. -/
def isPlaylistUrl (url : String) : Bool :=
  strContains url "playlist" || strContains url "list="

/-- The error-message mapping of `getVideoInfo`'s catch block (server.js
lines 126-139). -/
def mapInfoError (msg : String) : String :=
  if strContains msg "playlist URL" then
    "This is a playlist URL. Please select \"Entire Playlist\" as download type."
  else if strContains msg "maxBuffer" then
    "Video info too large. Try a different video or check if it\x27s a very long video."
  else if strContains msg "No output from yt-dlp" then
    "yt-dlp failed to get video information. Please check if the URL is valid."
  else if strContains msg "Invalid video info" then
    "Could not parse video information. The video might be private or unavailable."
  else if strContains msg "JSON" then
    "Failed to parse video information. The video might be restricted or unavailable."
  else
    "Failed to get video info: " ++ msg

/-- The message thrown by the playlist check inside `getVideoInfo`
(server.js line 64). -/
def playlistCheckMsg : String :=
  "This is a playlist URL. Please use the playlist download option instead."

/-- The cache-miss path of `getVideoInfo` (server.js lines 62-117 plus the
catch block): reject playlist URLs, otherwise run the metadata fetch
(`execPromise` of the `yt-dlp --dump-json` command plus JSON parsing,
modelled by the oracle `fetch`), cache a successful payload with a fresh
timestamp, and map failure messages through the catch block.  The third
component counts external invocations. -/
def fetchAndCache (fetch : String → Except String VideoInfo) (now : Nat)
    (cache : Cache) (url : String) : Except String VideoInfo × Cache × Nat :=
  if isPlaylistUrl url then
    (Except.error (mapInfoError playlistCheckMsg), cache, 0)
  else
    match fetch url with
    | Except.ok info => (Except.ok info, mapSet url ⟨info, now⟩ cache, 1)
    | Except.error e => (Except.error (mapInfoError e), cache, 1)

/-- `getVideoInfo` (server.js lines 50-141): return the cached payload when
the entry is younger than `CACHE_DURATION`, otherwise fall through to the
fetch-and-cache path. -/
def getVideoInfo (fetch : String → Except String VideoInfo) (now : Nat)
    (cache : Cache) (url : String) : Except String VideoInfo × Cache × Nat :=
  match mapGet url cache with
  | some cachedInfo =>
    if now - cachedInfo.timestamp < CACHE_DURATION then
      (Except.ok cachedInfo.data, cache, 0)
    else
      fetchAndCache fetch now cache url
  | none => fetchAndCache fetch now cache url

/-- A sequence of `getVideoInfo` calls, each with a call time and a URL,
threading the cache. -/
def runCalls (fetch : String → Except String VideoInfo) :
    List (Nat × String) → Cache → Cache
  | [], c => c
  | (t, u) :: rest, c => runCalls fetch rest (getVideoInfo fetch t c u).2.1

/-! ### Playlist metadata (server.js lines 144-217) -/

/-- The playlist payload (server.js lines 192-195).  The entries are the
parsed JSON lines of the flat-playlist listing; their content is opaque to
every claim and is kept as raw strings. -/
structure PlaylistInfo where
  title : String
  entries : List String
deriving DecidableEq

/-- The error-message mapping of `getPlaylistInfo`'s catch block
(server.js lines 205-215). -/
def mapPlaylistError (msg : String) : String :=
  if strContains msg "maxBuffer" then
    "Playlist too large. Try a smaller playlist or individual videos."
  else if strContains msg "No output from yt-dlp" then
    "yt-dlp failed to get playlist information. Please check if the URL is valid."
  else if strContains msg "No playlist entries" then
    "No videos found in playlist. The playlist might be private or empty."
  else if strContains msg "No valid playlist entries" then
    "Could not parse playlist information. The playlist might be restricted or unavailable."
  else
    "Failed to get playlist info: " ++ msg

/-- `getPlaylistInfo` (server.js lines 144-217): one external invocation
for the flat entry listing, a second for the playlist title (both
`execPromise` calls modelled as oracles); an empty title string falls back
to `'YouTube Playlist'`; failures map through the catch block. -/
def getPlaylistInfo (fetchEntries : String → Except String (List String))
    (fetchTitle : String → Except String String) (url : String) :
    Except String PlaylistInfo × Nat :=
  match fetchEntries url with
  | Except.error e => (Except.error (mapPlaylistError e), 1)
  | Except.ok entries =>
    match fetchTitle url with
    | Except.error e => (Except.error (mapPlaylistError e), 2)
    | Except.ok t =>
      (Except.ok ⟨if t = "" then "YouTube Playlist" else t, entries⟩, 2)

/-! ### Endpoint handlers (synchronous phase)

Each handler model covers the handler body up to and including the start
of a download process (`exec`); the `exec` callback and the delayed
cleanup timers act later and are modelled separately.  The third result
component counts external invocations (`exec` / `execPromise` starts). -/

/-- The oracles giving the outcome of each kind of external invocation. -/
structure Oracles where
  fetchVideo : String → Except String VideoInfo
  fetchEntries : String → Except String (List String)
  fetchTitle : String → Except String String
  fetchFormats : String → Except String String

/-- A parsed JSON request body: `{ url, quality, type }`, each possibly
absent. -/
structure RequestBody where
  url : Option String
  quality : Option String
  type : Option String
deriving DecidableEq

/-- The caller-visible outcome of a handler's synchronous phase. -/
inductive Outcome where
  | badRequest (msg : String)
  | failed (msg : String)
  | okVideo (v : VideoInfo)
  | okPlaylist (p : PlaylistInfo)
  | okFormats (raw : String)
  | spawned (fmt : String)
deriving DecidableEq

/-- The `/api/info` route (server.js lines 220-246): validate the URL,
then branch on the playlist-URL test to `getPlaylistInfo` or
`getVideoInfo`; a thrown error becomes a 500 response. -/
def apiInfo (env : Oracles) (now : Nat) (st : Cache) (body : RequestBody) :
    Outcome × Cache × Nat :=
  match body.url with
  | none => (Outcome.badRequest "URL is required", st, 0)
  | some url =>
    if isPlaylistUrl url then
      match getPlaylistInfo env.fetchEntries env.fetchTitle url with
      | (Except.ok p, n) => (Outcome.okPlaylist p, st, n)
      | (Except.error e, n) => (Outcome.failed e, st, n)
    else
      match getVideoInfo env.fetchVideo now st url with
      | (Except.ok v, st', n) => (Outcome.okVideo v, st', n)
      | (Except.error e, st', n) => (Outcome.failed e, st', n)

/-- The `/api/download/video` route (server.js lines 249-432): validate
the URL, fetch metadata, then start the download process built from the
quality selector (default `'highest'`). -/
def apiDownloadVideo (env : Oracles) (now : Nat) (st : Cache) (body : RequestBody) :
    Outcome × Cache × Nat :=
  match body.url with
  | none => (Outcome.badRequest "URL is required", st, 0)
  | some url =>
    match getVideoInfo env.fetchVideo now st url with
    | (Except.error e, st', n) => (Outcome.failed e, st', n)
    | (Except.ok _, st', n) =>
      (Outcome.spawned (formatSelector (body.quality.getD "highest")), st', n + 1)

/-- `handleVideoDownload` (server.js lines 459-636), reached from
`/api/download` after validation; identical pipeline to the
`/api/download/video` route. -/
def handleVideoDownload (env : Oracles) (now : Nat) (st : Cache)
    (url : String) (quality : Option String) : Outcome × Cache × Nat :=
  match getVideoInfo env.fetchVideo now st url with
  | (Except.error e, st', n) => (Outcome.failed e, st', n)
  | (Except.ok _, st', n) =>
    (Outcome.spawned (formatSelector (quality.getD "highest")), st', n + 1)

/-- `handleAudioDownload` (server.js lines 639-685): fetch metadata, then
start the `bestaudio` extraction process. -/
def handleAudioDownload (env : Oracles) (now : Nat) (st : Cache)
    (url : String) : Outcome × Cache × Nat :=
  match getVideoInfo env.fetchVideo now st url with
  | (Except.error e, st', n) => (Outcome.failed e, st', n)
  | (Except.ok _, st', n) => (Outcome.spawned "bestaudio", st', n + 1)

/-- `handlePlaylistDownload` (server.js lines 688-797): fetch the playlist
listing, then start the playlist download process built from the shared
quality chain (default `'highest'`). -/
def handlePlaylistDownload (env : Oracles) (st : Cache)
    (url : String) (quality : Option String) : Outcome × Cache × Nat :=
  match getPlaylistInfo env.fetchEntries env.fetchTitle url with
  | (Except.error e, n) => (Outcome.failed e, st, n)
  | (Except.ok _, n) =>
    (Outcome.spawned (formatSelector (quality.getD "highest")), st, n + 1)

/-- The unified `/api/download` route (server.js lines 435-456): validate
the URL, then dispatch on `type` (default `'video'`). -/
def apiDownload (env : Oracles) (now : Nat) (st : Cache) (body : RequestBody) :
    Outcome × Cache × Nat :=
  match body.url with
  | none => (Outcome.badRequest "URL is required", st, 0)
  | some url =>
    if body.type.getD "video" = "playlist" then
      handlePlaylistDownload env st url body.quality
    else if body.type.getD "video" = "audio" then
      handleAudioDownload env now st url
    else
      handleVideoDownload env now st url body.quality

/-- The `/api/download/playlist` route (server.js lines 800-855): validate
the URL, fetch the playlist listing, then start the download built from
this route's own quality chain (default `'best'`). -/
def apiDownloadPlaylist (env : Oracles) (st : Cache) (body : RequestBody) :
    Outcome × Cache × Nat :=
  match body.url with
  | none => (Outcome.badRequest "URL is required", st, 0)
  | some url =>
    match getPlaylistInfo env.fetchEntries env.fetchTitle url with
    | (Except.error e, n) => (Outcome.failed e, st, n)
    | (Except.ok _, n) =>
      (Outcome.spawned (playlistRouteFormatSelector (body.quality.getD "best")), st, n + 1)

/-- The `/api/download/audio` route (server.js lines 858-908): validate
the URL, fetch metadata, then start the `bestaudio` extraction. -/
def apiDownloadAudio (env : Oracles) (now : Nat) (st : Cache) (body : RequestBody) :
    Outcome × Cache × Nat :=
  match body.url with
  | none => (Outcome.badRequest "URL is required", st, 0)
  | some url =>
    match getVideoInfo env.fetchVideo now st url with
    | (Except.error e, st', n) => (Outcome.failed e, st', n)
    | (Except.ok _, st', n) => (Outcome.spawned "bestaudio", st', n + 1)

/-- The `/api/formats` route (server.js lines 920-977): validate the URL,
then run `yt-dlp -F` (oracle). -/
def apiFormats (env : Oracles) (body : RequestBody) : Outcome × Nat :=
  match body.url with
  | none => (Outcome.badRequest "URL is required", 0)
  | some url =>
    match env.fetchFormats url with
    | Except.ok out => (Outcome.okFormats out, 1)
    | Except.error e => (Outcome.failed e, 1)

/-- The error mapping of the download `exec` callback (server.js line
300): every failure, of any kind, becomes `'Download failed: ' + message`. -/
def downloadErrorMessage (msg : String) : String :=
  "Download failed: " ++ msg

/-- The error mapping of the playlist download `exec` callback (server.js
line 740). -/
def playlistDownloadErrorMessage (msg : String) : String :=
  "Playlist download failed: " ++ msg

/-! ### The download timeout supervisor (server.js lines 419-426, 784-791) -/

/-- The state of a supervised download: whether the OS process is still
running, whether `kill()` has been called (`childProcess.killed`), and
whether a response has already been sent (`res.headersSent`). -/
structure DownloadProc where
  running : Bool
  killed : Bool
  headersSent : Bool
deriving DecidableEq

/-- `childProcess.kill()`: terminate the process and set the `killed`
flag. -/
def killProc (p : DownloadProc) : DownloadProc :=
  { p with running := false, killed := true }

/-- The single-video download timeout (server.js line 426). -/
def VIDEO_TIMEOUT_MS : Nat := 600000

/-- The playlist download timeout (server.js line 791). -/
def PLAYLIST_TIMEOUT_MS : Nat := 1800000

/-- The timeout callback installed for a single-video download (server.js
lines 419-426): if `kill()` has not been called, kill the process, and if
no response has been sent yet, answer 500 with the timeout message. -/
def videoTimeoutHandler (p : DownloadProc) : DownloadProc × Option (Nat × String) :=
  if p.killed = false then
    let p' := killProc p
    if p.headersSent = false then
      (p', some (500, "Download timeout after 10 minutes"))
    else
      (p', none)
  else (p, none)

/-- The timeout callback installed for a playlist download (server.js
lines 784-791). -/
def playlistTimeoutHandler (p : DownloadProc) : DownloadProc × Option (Nat × String) :=
  if p.killed = false then
    let p' := killProc p
    if p.headersSent = false then
      (p', some (500, "Playlist download timeout after 30 minutes"))
    else
      (p', none)
  else (p, none)

/-! ### Properties of `sanitizeFilename` -/

/-- Characters allowed in a sanitized filename: word characters, dots,
hyphens. -/
def allowedChar (c : Char) : Bool :=
  wordChar c || c == '.' || c == '-'

lemma spaceChars_all_not_allowed :
    spaceChars.all (fun c => !(allowedChar c)) = true := by decide

lemma spaceChar_eq_false_of_allowed {c : Char} (h : allowedChar c = true) :
    spaceChar c = false := by
  cases hs : spaceChar c
  · rfl
  · exfalso
    have hmem : c ∈ spaceChars := by
      have hs' : spaceChars.elem c = true := hs
      exact List.elem_iff.mp hs'
    have hall := List.all_eq_true.mp spaceChars_all_not_allowed c hmem
    rw [h] at hall
    simp at hall

lemma mem_collapseWs {c : Char} :
    ∀ (b : Bool) (l : List Char), c ∈ collapseWs b l →
      c = '_' ∨ (c ∈ l ∧ spaceChar c = false)
  | _, [], h => by simp [collapseWs] at h
  | b, a :: l, h => by
    by_cases ha : spaceChar a = true
    · by_cases hb : b = true
      · subst hb
        rw [collapseWs, if_pos ha] at h
        simp only [if_pos] at h
        rcases mem_collapseWs true l h with h' | ⟨hc, hcs⟩
        · exact Or.inl h'
        · exact Or.inr ⟨List.mem_cons_of_mem _ hc, hcs⟩
      · have hb' : b = false := by
          cases b
          · rfl
          · exact absurd rfl hb
        subst hb'
        rw [collapseWs, if_pos ha, if_neg (by decide : ¬(false = true))] at h
        rcases List.mem_cons.mp h with h' | h'
        · exact Or.inl h'
        · rcases mem_collapseWs true l h' with h'' | ⟨hc, hcs⟩
          · exact Or.inl h''
          · exact Or.inr ⟨List.mem_cons_of_mem _ hc, hcs⟩
    · have ha' : spaceChar a = false := by
        cases hx : spaceChar a
        · rfl
        · exact absurd hx ha
      rw [collapseWs, if_neg (by simp [ha'])] at h
      rcases List.mem_cons.mp h with h' | h'
      · subst h'
        exact Or.inr ⟨List.mem_cons_self _ _, ha'⟩
      · rcases mem_collapseWs false l h' with h'' | ⟨hc, hcs⟩
        · exact Or.inl h''
        · exact Or.inr ⟨List.mem_cons_of_mem _ hc, hcs⟩

lemma collapseWs_eq_self_of_no_space :
    ∀ (b : Bool) (l : List Char), (∀ c ∈ l, spaceChar c = false) →
      collapseWs b l = l
  | _, [], _ => rfl
  | b, a :: l, h => by
    have ha : spaceChar a = false := h a (List.mem_cons_self _ _)
    rw [collapseWs, if_neg (by simp [ha])]
    rw [collapseWs_eq_self_of_no_space false l
      (fun c hc => h c (List.mem_cons_of_mem _ hc))]

lemma allowedChar_of_mem_sanitize {s : String} {c : Char}
    (h : c ∈ (sanitizeFilename s).data) : allowedChar c = true := by
  rcases mem_collapseWs false _ h with h' | ⟨hc, hcs⟩
  · subst h'
    decide
  · have hk : keepChar c = true := (List.mem_filter.mp hc).2
    unfold keepChar at hk
    unfold allowedChar
    rcases Bool.or_eq_true_iff.mp hk with hk' | hk'
    · rcases Bool.or_eq_true_iff.mp hk' with hk'' | hk''
      · rcases Bool.or_eq_true_iff.mp hk'' with hk3 | hk3
        · simp [hk3]
        · rw [hk3] at hcs
          exact absurd hcs (by simp)
      · simp [hk'']
    · simp [hk']

/-- C10: the filename sanitizer emits only word characters, dots and
hyphens (in particular no whitespace), and it is idempotent. -/
theorem sanitizeFilename_alphabet_and_idem (s : String) :
    (∀ c ∈ (sanitizeFilename s).data,
      (wordChar c = true ∨ c = '.' ∨ c = '-') ∧ spaceChar c = false) ∧
    sanitizeFilename (sanitizeFilename s) = sanitizeFilename s := by
  constructor
  · intro c hc
    have ha := allowedChar_of_mem_sanitize hc
    refine ⟨?_, spaceChar_eq_false_of_allowed ha⟩
    unfold allowedChar at ha
    rcases Bool.or_eq_true_iff.mp ha with h' | h'
    · rcases Bool.or_eq_true_iff.mp h' with h'' | h''
      · exact Or.inl h''
      · exact Or.inr (Or.inl (by simpa using h''))
    · exact Or.inr (Or.inr (by simpa using h'))
  · have hall : ∀ c ∈ (sanitizeFilename s).data, allowedChar c = true :=
      fun c hc => allowedChar_of_mem_sanitize hc
    have hfilter : (sanitizeFilename s).data.filter keepChar =
        (sanitizeFilename s).data := by
      apply List.filter_eq_self.mpr
      intro c hc
      have := hall c hc
      unfold allowedChar at this
      unfold keepChar
      rcases Bool.or_eq_true_iff.mp this with h' | h'
      · rcases Bool.or_eq_true_iff.mp h' with h'' | h''
        · simp [h'']
        · simp [h'']
      · simp [h']
    have hnospace : ∀ c ∈ (sanitizeFilename s).data, spaceChar c = false :=
      fun c hc => spaceChar_eq_false_of_allowed (hall c hc)
    show (⟨collapseWs false ((sanitizeFilename s).data.filter keepChar)⟩ : String) =
      sanitizeFilename s
    rw [hfilter, collapseWs_eq_self_of_no_space false _ hnospace]

/-! ### Properties of the quality-selector mapping -/

/-- C3: the download handlers' quality mapping is a fixed table: each
recognized selector maps to its fixed format-selector string, and every
unrecognized quality string maps to the default 720p tier. -/
theorem formatSelector_table_and_default :
    formatSelector "144p" = "18" ∧
    formatSelector "240p" = "18" ∧
    formatSelector "360p" = "18" ∧
    formatSelector "480p" = "135+140/244+140/397+140/bestvideo[height<=480]+bestaudio" ∧
    formatSelector "720p" = "136+140/247+140/398+140/bestvideo[height<=720]+bestaudio" ∧
    formatSelector "1080p" = "137+140/248+140/399+140/bestvideo[height<=1080]+bestaudio" ∧
    formatSelector "1440p" = "271+140/400+140/bestvideo[height<=1440]+bestaudio" ∧
    formatSelector "4k" = "313+140/401+140/bestvideo[height<=2160]+bestaudio" ∧
    formatSelector "highest" = "136+140/247+140/398+140/bestvideo[height<=720]+bestaudio" ∧
    ∀ q : String,
      q ∉ (["144p", "240p", "360p", "480p", "720p", "1080p", "1440p", "4k",
            "highest"] : List String) →
      formatSelector q = "136+140/247+140/398+140/bestvideo[height<=720]+bestaudio" := by
  refine ⟨by decide, by decide, by decide, by decide, by decide, by decide,
    by decide, by decide, by decide, ?_⟩
  intro q hq
  have h144 : q ≠ "144p" := fun h => hq (by simp [h])
  have h240 : q ≠ "240p" := fun h => hq (by simp [h])
  have h360 : q ≠ "360p" := fun h => hq (by simp [h])
  have h480 : q ≠ "480p" := fun h => hq (by simp [h])
  have h720 : q ≠ "720p" := fun h => hq (by simp [h])
  have h1080 : q ≠ "1080p" := fun h => hq (by simp [h])
  have h1440 : q ≠ "1440p" := fun h => hq (by simp [h])
  have h4k : q ≠ "4k" := fun h => hq (by simp [h])
  have hhi : q ≠ "highest" := fun h => hq (by simp [h])
  simp [formatSelector, h144, h240, h360, h480, h720, h1080, h1440, h4k, hhi]

/-- Witness for C3's fallback clause at the concrete unrecognized
selector `"webm"`. -/
theorem formatSelector_default_witness :
    ("webm" : String) ∉ (["144p", "240p", "360p", "480p", "720p", "1080p",
      "1440p", "4k", "highest"] : List String) ∧
    formatSelector "webm" = "136+140/247+140/398+140/bestvideo[height<=720]+bestaudio" :=
  ⟨by decide,
   formatSelector_table_and_default.2.2.2.2.2.2.2.2.2 "webm" (by decide)⟩

/-! ### Properties of the cleanup sweeps -/

/-- C8: a temp-file cleanup pass deletes nothing from a directory in which
no entry matches its temporary-file criteria, and any pass is idempotent:
two successive passes equal one. -/
theorem cleanupTempFiles_noop_and_idem (sanitizedTitle : String)
    (dir : List FileEntry)
    (hclean : ∀ e ∈ dir, isTempName sanitizedTitle e.name = false) :
    cleanupTempFiles sanitizedTitle dir = dir ∧
    ∀ d : List FileEntry,
      cleanupTempFiles sanitizedTitle (cleanupTempFiles sanitizedTitle d) =
        cleanupTempFiles sanitizedTitle d := by
  constructor
  · apply List.filter_eq_self.mpr
    intro e he
    simp [hclean e he]
  · intro d
    unfold cleanupTempFiles
    rw [List.filter_filter]
    congr 1
    funext e
    cases isTempName sanitizedTitle e.name <;> rfl

/-- Witness for C8 at a concrete directory holding only a final `.mp4`
and an unrelated file. -/
theorem cleanupTempFiles_noop_witness :
    (∀ e ∈ ([⟨"title.mp4", 100⟩, ⟨"other.txt", 1⟩] : List FileEntry),
      isTempName "title" e.name = false) ∧
    (cleanupTempFiles "title" [⟨"title.mp4", 100⟩, ⟨"other.txt", 1⟩] =
      [⟨"title.mp4", 100⟩, ⟨"other.txt", 1⟩] ∧
     ∀ d : List FileEntry,
       cleanupTempFiles "title" (cleanupTempFiles "title" d) =
         cleanupTempFiles "title" d) :=
  ⟨by decide, cleanupTempFiles_noop_and_idem "title" _ (by decide)⟩

/-! ### Properties of the timeout supervisor -/

/-- C7: at timeout expiry, when `kill()` has not been called yet, both the
single-video and the playlist timeout callback terminate the process —
also when a response has already been sent — and, when no response has
been sent, answer 500 with the timeout message; afterwards the process is
no longer running.  The installed delays are 10 minutes (single video)
and 30 minutes (playlist). -/
theorem timeoutHandler_kills_and_reports (p : DownloadProc)
    (hk : p.killed = false) :
    ((videoTimeoutHandler p).1.running = false ∧
     (videoTimeoutHandler p).1.killed = true ∧
     (p.headersSent = false →
       (videoTimeoutHandler p).2 = some (500, "Download timeout after 10 minutes")) ∧
     (p.headersSent = true → (videoTimeoutHandler p).2 = none)) ∧
    ((playlistTimeoutHandler p).1.running = false ∧
     (playlistTimeoutHandler p).1.killed = true ∧
     (p.headersSent = false →
       (playlistTimeoutHandler p).2 =
         some (500, "Playlist download timeout after 30 minutes")) ∧
     (p.headersSent = true → (playlistTimeoutHandler p).2 = none)) ∧
    VIDEO_TIMEOUT_MS = 600000 ∧ PLAYLIST_TIMEOUT_MS = 1800000 := by
  cases hh : p.headersSent <;>
    simp [videoTimeoutHandler, playlistTimeoutHandler, killProc, hk, hh,
      VIDEO_TIMEOUT_MS, PLAYLIST_TIMEOUT_MS]

/-- Witness for C7 at the concrete state of a still-running, un-killed
download with no response sent. -/
theorem timeoutHandler_witness :
    (DownloadProc.mk true false false).killed = false ∧
    (videoTimeoutHandler (DownloadProc.mk true false false)).1.running = false ∧
    (videoTimeoutHandler (DownloadProc.mk true false false)).2 =
      some (500, "Download timeout after 10 minutes") :=
  ⟨rfl,
   (timeoutHandler_kills_and_reports ⟨true, false, false⟩ rfl).1.1,
   (timeoutHandler_kills_and_reports ⟨true, false, false⟩ rfl).1.2.2.1 rfl⟩

/-! ### Properties of the video-info cache -/

lemma mapGet_mapSet_self (k : String) (v : CacheEntry) :
    ∀ c : Cache, mapGet k (mapSet k v c) = some v := by
  intro c
  induction c with
  | nil => simp [mapSet, mapGet]
  | cons p rest ih =>
    obtain ⟨k', v'⟩ := p
    by_cases h : k' = k
    · simp [mapSet, mapGet, h]
    · simp only [mapSet, if_neg h, mapGet]
      exact ih

lemma mem_cacheKeys_of_mapGet_some {k : String} {v : CacheEntry} :
    ∀ {c : Cache}, mapGet k c = some v → k ∈ cacheKeys c := by
  intro c
  induction c with
  | nil => intro h; simp [mapGet] at h
  | cons p rest ih =>
    obtain ⟨k', v'⟩ := p
    intro h
    by_cases hk : k' = k
    · exact List.mem_cons.mpr (Or.inl hk.symm)
    · rw [mapGet, if_neg hk] at h
      exact List.mem_cons_of_mem _ (ih h)

lemma mapGet_eq_none_of_not_mem {k : String} :
    ∀ {c : Cache}, k ∉ cacheKeys c → mapGet k c = none := by
  intro c
  induction c with
  | nil => intro _; rfl
  | cons p rest ih =>
    obtain ⟨k', v'⟩ := p
    intro h
    have hk : k' ≠ k := by
      intro he
      exact h (List.mem_cons.mpr (Or.inl he.symm))
    rw [mapGet, if_neg hk]
    exact ih (fun hm => h (List.mem_cons_of_mem _ hm))

lemma cacheKeys_mapSet_of_mem (v : CacheEntry) (k : String) :
    ∀ c : Cache, k ∈ cacheKeys c → cacheKeys (mapSet k v c) = cacheKeys c := by
  intro c
  induction c with
  | nil => intro h; cases h
  | cons p rest ih =>
    obtain ⟨k', v'⟩ := p
    intro h
    by_cases hk : k' = k
    · subst hk
      simp [mapSet, cacheKeys]
    · rw [mapSet, if_neg hk]
      have hmem : k ∈ cacheKeys rest := by
        rcases List.mem_cons.mp h with h' | h'
        · exact absurd h'.symm hk
        · exact h'
      show k' :: cacheKeys (mapSet k v rest) = k' :: cacheKeys rest
      rw [ih hmem]

lemma mem_cacheKeys_mapSet {x k : String} (v : CacheEntry) :
    ∀ c : Cache, x ∈ cacheKeys (mapSet k v c) → x = k ∨ x ∈ cacheKeys c := by
  intro c
  induction c with
  | nil => intro h; simpa [mapSet, cacheKeys] using h
  | cons p rest ih =>
    obtain ⟨k', v'⟩ := p
    intro h
    by_cases hk : k' = k
    · rw [mapSet, if_pos hk] at h
      rcases List.mem_cons.mp h with h' | h'
      · exact Or.inl h'
      · exact Or.inr (List.mem_cons_of_mem _ h')
    · rw [mapSet, if_neg hk] at h
      rcases List.mem_cons.mp h with h' | h'
      · exact Or.inr (List.mem_cons.mpr (Or.inl h'))
      · rcases ih h' with h'' | h''
        · exact Or.inl h''
        · exact Or.inr (List.mem_cons_of_mem _ h'')

lemma nodup_cacheKeys_mapSet (k : String) (v : CacheEntry) :
    ∀ c : Cache, (cacheKeys c).Nodup → (cacheKeys (mapSet k v c)).Nodup := by
  intro c
  induction c with
  | nil => intro _; simp [mapSet, cacheKeys]
  | cons p rest ih =>
    obtain ⟨k', v'⟩ := p
    intro h
    obtain ⟨hnotin, hnd⟩ := List.nodup_cons.mp h
    by_cases hk : k' = k
    · subst hk
      rw [mapSet, if_pos rfl]
      exact List.nodup_cons.mpr ⟨hnotin, hnd⟩
    · rw [mapSet, if_neg hk]
      refine List.nodup_cons.mpr ⟨?_, ih hnd⟩
      intro hmem
      rcases mem_cacheKeys_mapSet v rest hmem with h' | h'
      · exact hk h'
      · exact hnotin h'

lemma cache_cases_getVideoInfo (fetch : String → Except String VideoInfo)
    (now : Nat) (c : Cache) (url : String) :
    (getVideoInfo fetch now c url).2.1 = c ∨
    ∃ info, isPlaylistUrl url = false ∧ fetch url = Except.ok info ∧
      (getVideoInfo fetch now c url).2.1 = mapSet url ⟨info, now⟩ c := by
  have hfc : (fetchAndCache fetch now c url).2.1 = c ∨
      ∃ info, isPlaylistUrl url = false ∧ fetch url = Except.ok info ∧
        (fetchAndCache fetch now c url).2.1 = mapSet url ⟨info, now⟩ c := by
    unfold fetchAndCache
    cases hpl : isPlaylistUrl url with
    | true => simp
    | false =>
      cases hf : fetch url with
      | ok info =>
        right
        exact ⟨info, rfl, rfl, by simp⟩
      | error e => simp
  unfold getVideoInfo
  cases hget : mapGet url c with
  | some entry =>
    by_cases ht : now - entry.timestamp < CACHE_DURATION
    · simp [ht]
    · simpa [ht] using hfc
  | none => simpa using hfc

lemma nodup_getVideoInfo (fetch : String → Except String VideoInfo)
    (now : Nat) (c : Cache) (url : String)
    (h : (cacheKeys c).Nodup) :
    (cacheKeys (getVideoInfo fetch now c url).2.1).Nodup := by
  rcases cache_cases_getVideoInfo fetch now c url with h' | ⟨info, _, _, h'⟩
  · rw [h']; exact h
  · rw [h']; exact nodup_cacheKeys_mapSet url ⟨info, now⟩ c h

lemma nodup_runCalls (fetch : String → Except String VideoInfo) :
    ∀ (evs : List (Nat × String)) (c : Cache), (cacheKeys c).Nodup →
      (cacheKeys (runCalls fetch evs c)).Nodup
  | [], _, h => h
  | (t, u) :: rest, c, h =>
    nodup_runCalls fetch rest _ (nodup_getVideoInfo fetch t c u h)

/-- No cached key passes the playlist-URL test. -/
def noPlaylistKey (c : Cache) : Prop :=
  ∀ k ∈ cacheKeys c, isPlaylistUrl k = false

lemma noPlaylistKey_mapSet {c : Cache} {k : String} (v : CacheEntry)
    (hc : noPlaylistKey c) (hk : isPlaylistUrl k = false) :
    noPlaylistKey (mapSet k v c) := by
  intro x hx
  rcases mem_cacheKeys_mapSet v c hx with h | h
  · rw [h]; exact hk
  · exact hc x h

lemma noPlaylistKey_getVideoInfo (fetch : String → Except String VideoInfo)
    (now : Nat) (c : Cache) (url : String) (h : noPlaylistKey c) :
    noPlaylistKey (getVideoInfo fetch now c url).2.1 := by
  rcases cache_cases_getVideoInfo fetch now c url with h' | ⟨info, hpl, _, h'⟩
  · rw [h']; exact h
  · rw [h']; exact noPlaylistKey_mapSet ⟨info, now⟩ h hpl

lemma noPlaylistKey_runCalls (fetch : String → Except String VideoInfo) :
    ∀ (evs : List (Nat × String)) (c : Cache), noPlaylistKey c →
      noPlaylistKey (runCalls fetch evs c)
  | [], _, h => h
  | (t, u) :: rest, c, h =>
    noPlaylistKey_runCalls fetch rest _ (noPlaylistKey_getVideoInfo fetch t c u h)

/-- A concrete payload used by the witnesses. -/
def sampleInfo : VideoInfo := ⟨"Sample Title", 120, "thumb", "uploader", 42⟩

/-- A second concrete payload used by the witnesses. -/
def sampleInfo2 : VideoInfo := ⟨"Old Title", 60, "thumb2", "uploader2", 7⟩

/-- C1: starting from a miss on a non-playlist URL, two `getVideoInfo`
calls on that URL within the 5-minute retention window return the
identical payload with exactly one external fetch for the pair: the
first call fetches and caches, the second returns the cached payload,
fetches nothing and leaves the cache unchanged. -/
theorem getVideoInfo_cached_pair (fetch : String → Except String VideoInfo)
    (t1 t2 : Nat) (cache : Cache) (url : String) (info : VideoInfo)
    (hmiss : mapGet url cache = none)
    (hpl : isPlaylistUrl url = false)
    (hfetch : fetch url = Except.ok info)
    (hwin : t2 - t1 < CACHE_DURATION) :
    getVideoInfo fetch t1 cache url =
      (Except.ok info, mapSet url ⟨info, t1⟩ cache, 1) ∧
    getVideoInfo fetch t2 (getVideoInfo fetch t1 cache url).2.1 url =
      (Except.ok info, mapSet url ⟨info, t1⟩ cache, 0) := by
  have h1 : getVideoInfo fetch t1 cache url =
      (Except.ok info, mapSet url ⟨info, t1⟩ cache, 1) := by
    unfold getVideoInfo
    rw [hmiss]
    unfold fetchAndCache
    simp [hpl, hfetch]
  refine ⟨h1, ?_⟩
  rw [h1]
  show getVideoInfo fetch t2 (mapSet url ⟨info, t1⟩ cache) url = _
  unfold getVideoInfo
  rw [mapGet_mapSet_self]
  simp only []
  rw [if_pos]
  exact hwin

/-- Witness for C1 at a concrete URL, fetch oracle and pair of call
times 0 and 1000 ms. -/
theorem getVideoInfo_cached_pair_witness :
    mapGet "https://youtu.be/abc" ([] : Cache) = none ∧
    isPlaylistUrl "https://youtu.be/abc" = false ∧
    (fun _ : String => Except.ok (ε := String) sampleInfo) "https://youtu.be/abc" =
      Except.ok sampleInfo ∧
    1000 - 0 < CACHE_DURATION ∧
    (getVideoInfo (fun _ => Except.ok sampleInfo) 0 [] "https://youtu.be/abc" =
       (Except.ok sampleInfo, mapSet "https://youtu.be/abc" ⟨sampleInfo, 0⟩ [], 1) ∧
     getVideoInfo (fun _ => Except.ok sampleInfo) 1000
         (getVideoInfo (fun _ => Except.ok sampleInfo) 0 [] "https://youtu.be/abc").2.1
         "https://youtu.be/abc" =
       (Except.ok sampleInfo, mapSet "https://youtu.be/abc" ⟨sampleInfo, 0⟩ [], 0)) :=
  ⟨by decide, by decide, rfl, by decide,
   getVideoInfo_cached_pair (fun _ => Except.ok sampleInfo) 0 1000 []
     "https://youtu.be/abc" sampleInfo (by decide) (by decide) rfl (by decide)⟩

/-- C2: along any call sequence from the empty cache the cache keys stay
duplicate-free (at most one entry per key), and a lookup of an expired
entry performs exactly one new fetch and overwrites the entry in place:
the key set is unchanged and the key maps to the fresh payload. -/
theorem cache_at_most_one_entry (fetch : String → Except String VideoInfo) :
    (∀ evs : List (Nat × String), (cacheKeys (runCalls fetch evs [])).Nodup) ∧
    (∀ (now : Nat) (c : Cache) (url : String) (entry : CacheEntry) (info : VideoInfo),
      mapGet url c = some entry →
      CACHE_DURATION ≤ now - entry.timestamp →
      isPlaylistUrl url = false →
      fetch url = Except.ok info →
      (getVideoInfo fetch now c url).2.2 = 1 ∧
      mapGet url (getVideoInfo fetch now c url).2.1 = some ⟨info, now⟩ ∧
      cacheKeys (getVideoInfo fetch now c url).2.1 = cacheKeys c) := by
  constructor
  · intro evs
    exact nodup_runCalls fetch evs [] (by simp [cacheKeys])
  · intro now c url entry info hget hexp hpl hfetch
    have h1 : getVideoInfo fetch now c url =
        (Except.ok info, mapSet url ⟨info, now⟩ c, 1) := by
      have hlt : ¬ (now - entry.timestamp < CACHE_DURATION) := by omega
      simp [getVideoInfo, hget, hlt, fetchAndCache, hpl, hfetch]
    rw [h1]
    exact ⟨rfl, mapGet_mapSet_self url ⟨info, now⟩ c,
      cacheKeys_mapSet_of_mem ⟨info, now⟩ url c (mem_cacheKeys_of_mapGet_some hget)⟩

/-- Witness for C2 at a concrete expired entry: key `"u"` cached at time
0, looked up at time 300000 (= the retention window). -/
theorem cache_at_most_one_entry_witness :
    mapGet "u" [("u", ⟨sampleInfo2, 0⟩)] = some ⟨sampleInfo2, 0⟩ ∧
    CACHE_DURATION ≤ 300000 - 0 ∧
    isPlaylistUrl "u" = false ∧
    ((getVideoInfo (fun _ => Except.ok sampleInfo) 300000
        [("u", ⟨sampleInfo2, 0⟩)] "u").2.2 = 1 ∧
     mapGet "u" (getVideoInfo (fun _ => Except.ok sampleInfo) 300000
        [("u", ⟨sampleInfo2, 0⟩)] "u").2.1 = some ⟨sampleInfo, 300000⟩ ∧
     cacheKeys (getVideoInfo (fun _ => Except.ok sampleInfo) 300000
        [("u", ⟨sampleInfo2, 0⟩)] "u").2.1 =
       cacheKeys [("u", ⟨sampleInfo2, 0⟩)]) :=
  ⟨by decide, by decide, by decide,
   (cache_at_most_one_entry (fun _ => Except.ok sampleInfo)).2 300000
     [("u", ⟨sampleInfo2, 0⟩)] "u" ⟨sampleInfo2, 0⟩ sampleInfo (by decide)
     (by decide) (by decide) rfl⟩

/-- C5: no reachable cache state holds a playlist-marked key, and
submitting a playlist-marked URL to `getVideoInfo` on such a cache fails
with the error message directing the caller to the playlist download
path, with the cache unchanged and no external fetch. -/
theorem playlist_url_rejected (fetch : String → Except String VideoInfo) :
    (∀ evs : List (Nat × String), noPlaylistKey (runCalls fetch evs [])) ∧
    (∀ (now : Nat) (c : Cache) (url : String),
      noPlaylistKey c → isPlaylistUrl url = true →
      getVideoInfo fetch now c url =
        (Except.error
          "This is a playlist URL. Please select \"Entire Playlist\" as download type.",
         c, 0)) := by
  constructor
  · intro evs
    exact noPlaylistKey_runCalls fetch evs []
      (fun k hk => absurd hk (List.not_mem_nil k))
  · intro now c url hc hurl
    have hnone : mapGet url c = none := by
      apply mapGet_eq_none_of_not_mem
      intro hmem
      have hfalse := hc url hmem
      rw [hfalse] at hurl
      exact Bool.noConfusion hurl
    have hmsg : mapInfoError playlistCheckMsg =
        "This is a playlist URL. Please select \"Entire Playlist\" as download type." := by
      decide
    unfold getVideoInfo
    rw [hnone]
    unfold fetchAndCache
    rw [hmsg] at *
    simp [hurl, hmsg]

/-- Witness for C5 at a concrete playlist URL against the empty cache. -/
theorem playlist_url_rejected_witness :
    noPlaylistKey ([] : Cache) ∧
    isPlaylistUrl "https://www.youtube.com/playlist?list=PL123" = true ∧
    getVideoInfo (fun _ => Except.error "oracle unused") 0 []
        "https://www.youtube.com/playlist?list=PL123" =
      (Except.error
        "This is a playlist URL. Please select \"Entire Playlist\" as download type.",
       [], 0) :=
  ⟨fun k hk => absurd hk (List.not_mem_nil k), by decide,
   (playlist_url_rejected (fun _ => Except.error "oracle unused")).2 0 []
     "https://www.youtube.com/playlist?list=PL123"
     (fun k hk => absurd hk (List.not_mem_nil k)) (by decide)⟩

/-! ### Request validation and error-kind mapping -/

/-- Concrete oracles used by witnesses; every external invocation fails,
so any invocation that did happen would be visible in the outcome. -/
def sampleOracles : Oracles :=
  ⟨fun _ => Except.error "unused", fun _ => Except.error "unused",
   fun _ => Except.error "unused", fun _ => Except.error "unused"⟩

/-- C6: every download or info endpoint whose body carries no `url`
answers 400 `'URL is required'` before any metadata fetch or external
process start: the cache is unchanged and the invocation count is zero. -/
theorem missing_url_rejected (env : Oracles) (now : Nat) (st : Cache)
    (body : RequestBody) (hurl : body.url = none) :
    apiInfo env now st body = (Outcome.badRequest "URL is required", st, 0) ∧
    apiDownloadVideo env now st body = (Outcome.badRequest "URL is required", st, 0) ∧
    apiDownload env now st body = (Outcome.badRequest "URL is required", st, 0) ∧
    apiDownloadPlaylist env st body = (Outcome.badRequest "URL is required", st, 0) ∧
    apiDownloadAudio env now st body = (Outcome.badRequest "URL is required", st, 0) ∧
    apiFormats env body = (Outcome.badRequest "URL is required", 0) := by
  simp [apiInfo, apiDownloadVideo, apiDownload, apiDownloadPlaylist,
    apiDownloadAudio, apiFormats, hurl]

/-- Witness for C6 at the concrete empty request body. -/
theorem missing_url_rejected_witness :
    (RequestBody.mk none none none).url = none ∧
    apiInfo sampleOracles 0 [] ⟨none, none, none⟩ =
      (Outcome.badRequest "URL is required", [], 0) ∧
    apiDownload sampleOracles 0 [] ⟨none, none, none⟩ =
      (Outcome.badRequest "URL is required", [], 0) ∧
    apiFormats sampleOracles ⟨none, none, none⟩ =
      (Outcome.badRequest "URL is required", 0) :=
  ⟨rfl,
   (missing_url_rejected sampleOracles 0 [] ⟨none, none, none⟩ rfl).1,
   (missing_url_rejected sampleOracles 0 [] ⟨none, none, none⟩ rfl).2.2.1,
   (missing_url_rejected sampleOracles 0 [] ⟨none, none, none⟩ rfl).2.2.2.2.2⟩

/-- C9 counterexample: for download invocations the output-cap overrun is
NOT a distinct failure kind: the download `exec` callback wraps the Node
maxBuffer error with exactly the same generic `'Download failed: '`
prefix as any other error (here contrasted with a spawn failure), instead
of a dedicated OutputTooLarge message. -/
theorem download_maxBuffer_not_distinct :
    strContains "stdout maxBuffer length exceeded" "maxBuffer" = true ∧
    downloadErrorMessage "stdout maxBuffer length exceeded" =
      "Download failed: " ++ "stdout maxBuffer length exceeded" ∧
    downloadErrorMessage "spawn yt-dlp ENOENT" =
      "Download failed: " ++ "spawn yt-dlp ENOENT" :=
  ⟨by decide, rfl, rfl⟩

/-- C9 (amended): metadata lookups and playlist lookups map output-cap
overruns to dedicated too-large messages distinct from their generic
fallbacks, while download invocations surface the failure only through
the generic `'Download failed: '` wrapping of the underlying message. -/
theorem maxBuffer_error_mapping (msg : String)
    (hmb : strContains msg "maxBuffer" = true)
    (hnpl : strContains msg "playlist URL" = false) :
    mapInfoError msg =
      "Video info too large. Try a different video or check if it\x27s a very long video." ∧
    mapPlaylistError msg =
      "Playlist too large. Try a smaller playlist or individual videos." ∧
    downloadErrorMessage msg = "Download failed: " ++ msg := by
  unfold mapInfoError mapPlaylistError downloadErrorMessage
  simp [hmb, hnpl]

/-- Witness for C9's amended mapping at the concrete Node maxBuffer error
message. -/
theorem maxBuffer_error_mapping_witness :
    strContains "stderr maxBuffer length exceeded" "maxBuffer" = true ∧
    strContains "stderr maxBuffer length exceeded" "playlist URL" = false ∧
    (mapInfoError "stderr maxBuffer length exceeded" =
      "Video info too large. Try a different video or check if it\x27s a very long video." ∧
     mapPlaylistError "stderr maxBuffer length exceeded" =
      "Playlist too large. Try a smaller playlist or individual videos." ∧
     downloadErrorMessage "stderr maxBuffer length exceeded" =
      "Download failed: " ++ "stderr maxBuffer length exceeded") :=
  ⟨by decide, by decide,
   maxBuffer_error_mapping "stderr maxBuffer length exceeded" (by decide) (by decide)⟩

/-! ### Properties of the final cleanup pass -/

lemma contains_eq_false_of_not_mem {l : List String} {a : String} (h : a ∉ l) :
    l.contains a = false := by
  cases hc : l.contains a
  · rfl
  · exact absurd (List.elem_iff.mp hc) h

lemma one_lt_length_of_two_mem {α : Type _} {a b : α} {l : List α}
    (ha : a ∈ l) (hb : b ∈ l) (hab : a ≠ b) : 1 < l.length := by
  match l with
  | [] => cases ha
  | [x] =>
    rw [List.mem_singleton] at ha hb
    exact absurd (ha.trans hb.symm) hab
  | x :: y :: rest =>
    simp only [List.length_cons]
    omega

lemma sortBySizeDesc_head_unique_max {l : List FileEntry} {m : FileEntry}
    (hm : m ∈ l)
    (hmax : ∀ y ∈ l, y ≠ m → y.size < m.size) :
    ∃ t, sortBySizeDesc l = m :: t := by
  obtain ⟨z, t, hs⟩ : ∃ z t, sortBySizeDesc l = z :: t := by
    cases hsort : sortBySizeDesc l with
    | nil =>
      exfalso
      have hmem : m ∈ sortBySizeDesc l :=
        (List.perm_insertionSort sizeGE l).mem_iff.mpr hm
      rw [hsort] at hmem
      cases hmem
    | cons z t => exact ⟨z, t, rfl⟩
  have hzmem : z ∈ l := by
    have : z ∈ sortBySizeDesc l := by
      rw [hs]
      exact List.mem_cons_self z t
    exact (List.perm_insertionSort sizeGE l).mem_iff.mp this
  by_cases hzm : z = m
  · exact ⟨t, hzm ▸ hs⟩
  · exfalso
    have hzs : z.size < m.size := hmax z hzmem hzm
    have hmsort : m ∈ z :: t := by
      rw [← hs]
      exact (List.perm_insertionSort sizeGE l).mem_iff.mpr hm
    have hmt : m ∈ t := by
      rcases List.mem_cons.mp hmsort with h | h
      · exact absurd h.symm hzm
      · exact h
    have hsorted : List.Sorted sizeGE (z :: t) := by
      rw [← hs]
      exact List.sorted_insertionSort sizeGE l
    have hge : sizeGE z m := (List.sorted_cons.mp hsorted).1 m hmt
    have hle : m.size ≤ z.size := hge
    omega

lemma isRemainingNonMp4_eq_false_of_final {t n : String}
    (h : isFinalMp4 t n = true) : isRemainingNonMp4 t n = false := by
  unfold isFinalMp4 at h
  rw [Bool.and_eq_true] at h
  unfold isRemainingNonMp4
  rw [h.2]
  simp

/-- C4: concretely, a final cleanup pass over exactly
`title.webm`, `title.f140.m4a`, `title.mp4` (the `.mp4` largest) deletes
the first two and keeps `title.mp4` untouched; in general, over a
directory with duplicate-free names in which `m` is the strictly largest
entry matching the title-prefix/`.mp4` pattern, the pass keeps `m` and
deletes every other matching entry. -/
theorem finalCleanup_keeps_largest (title : String) (dir : List FileEntry)
    (m : FileEntry)
    (hnd : (dir.map FileEntry.name).Nodup)
    (hm : m ∈ dir) (hmmatch : isFinalMp4 title m.name = true)
    (hmax : ∀ e ∈ dir, isFinalMp4 title e.name = true → e ≠ m → e.size < m.size) :
    (finalCleanupPass "title"
        [⟨"title.webm", 5⟩, ⟨"title.f140.m4a", 3⟩, ⟨"title.mp4", 100⟩] =
      [⟨"title.mp4", 100⟩]) ∧
    m ∈ finalCleanupPass title dir ∧
    ∀ e ∈ finalCleanupPass title dir, isFinalMp4 title e.name = true → e = m := by
  have hinj := List.inj_on_of_nodup_map hnd
  have hmem_matches : m ∈ finalMP4Files title dir :=
    List.mem_filter.mpr ⟨hm, hmmatch⟩
  have hnd_matches_names : ((finalMP4Files title dir).map FileEntry.name).Nodup :=
    List.Nodup.sublist (List.Sublist.map FileEntry.name (List.filter_sublist dir)) hnd
  have hnd_matches : (finalMP4Files title dir).Nodup :=
    List.Nodup.of_map _ hnd_matches_names
  have hmax_matches : ∀ y ∈ finalMP4Files title dir, y ≠ m → y.size < m.size := by
    intro y hy hne
    obtain ⟨hyd, hyp⟩ := List.mem_filter.mp hy
    exact hmax y hyd hyp hne
  obtain ⟨t, hsort⟩ := sortBySizeDesc_head_unique_max hmem_matches hmax_matches
  have hperm : List.Perm (sortBySizeDesc (finalMP4Files title dir))
      (finalMP4Files title dir) :=
    List.perm_insertionSort sizeGE (finalMP4Files title dir)
  have hnds : (m :: t).Nodup := by
    rw [← hsort]
    exact hperm.nodup_iff.mpr hnd_matches
  have hmnott : m ∉ t := (List.nodup_cons.mp hnds).1
  have ht_sub : ∀ y ∈ t, y ∈ finalMP4Files title dir := by
    intro y hy
    apply hperm.mem_iff.mp
    rw [hsort]
    exact List.mem_cons_of_mem m hy
  have hm_not_smaller : m.name ∉ removedSmallerNames title dir := by
    unfold removedSmallerNames
    by_cases hlen : 1 < (finalMP4Files title dir).length
    · rw [if_pos hlen, hsort]
      intro hmem
      obtain ⟨y, hy, hyname⟩ := List.mem_map.mp hmem
      have hyd : y ∈ dir := (List.mem_filter.mp (ht_sub y hy)).1
      have : y = m := hinj hyd hm hyname
      exact hmnott (this ▸ hy)
    · rw [if_neg hlen]
      exact List.not_mem_nil m.name
  have hm_not_nonmp4 : m.name ∉ removedNonMp4Names title dir := by
    unfold removedNonMp4Names
    intro hmem
    obtain ⟨y, hy, hyname⟩ := List.mem_map.mp hmem
    obtain ⟨hyd, hyp⟩ := List.mem_filter.mp hy
    have hym : y = m := hinj hyd hm hyname
    rw [hym, isRemainingNonMp4_eq_false_of_final hmmatch] at hyp
    exact Bool.noConfusion hyp
  refine ⟨by decide, ?_, ?_⟩
  · apply List.mem_filter.mpr
    refine ⟨hm, ?_⟩
    rw [contains_eq_false_of_not_mem hm_not_smaller,
      contains_eq_false_of_not_mem hm_not_nonmp4]
    rfl
  · intro e he hematch
    by_contra hne
    obtain ⟨hed, hkeep⟩ := List.mem_filter.mp he
    have hematches : e ∈ finalMP4Files title dir :=
      List.mem_filter.mpr ⟨hed, hematch⟩
    have hlen : 1 < (finalMP4Files title dir).length :=
      one_lt_length_of_two_mem hematches hmem_matches hne
    have hes : e ∈ sortBySizeDesc (finalMP4Files title dir) :=
      hperm.mem_iff.mpr hematches
    rw [hsort] at hes
    have het : e ∈ t := by
      rcases List.mem_cons.mp hes with h | h
      · exact absurd h hne
      · exact h
    have hname : e.name ∈ removedSmallerNames title dir := by
      unfold removedSmallerNames
      rw [if_pos hlen, hsort]
      exact List.mem_map.mpr ⟨e, het, rfl⟩
    have hcont : (removedSmallerNames title dir).contains e.name = true :=
      List.elem_iff.mpr hname
    rw [hcont] at hkeep
    simp at hkeep

/-- Witness for C4 at a concrete directory holding two `.mp4` candidates
of distinct sizes and an unrelated file. -/
theorem finalCleanup_keeps_largest_witness :
    (([⟨"title.mp4", 10⟩, ⟨"title.f136.mp4", 7⟩, ⟨"unrelated.txt", 1⟩] :
        List FileEntry).map FileEntry.name).Nodup ∧
    (⟨"title.mp4", 10⟩ : FileEntry) ∈
      finalCleanupPass "title"
        [⟨"title.mp4", 10⟩, ⟨"title.f136.mp4", 7⟩, ⟨"unrelated.txt", 1⟩] ∧
    ∀ e ∈ finalCleanupPass "title"
        [⟨"title.mp4", 10⟩, ⟨"title.f136.mp4", 7⟩, ⟨"unrelated.txt", 1⟩],
      isFinalMp4 "title" e.name = true → e = ⟨"title.mp4", 10⟩ :=
  ⟨by decide,
   (finalCleanup_keeps_largest "title"
     [⟨"title.mp4", 10⟩, ⟨"title.f136.mp4", 7⟩, ⟨"unrelated.txt", 1⟩]
     ⟨"title.mp4", 10⟩ (by decide) (by decide) (by decide) (by decide)).2.1,
   (finalCleanup_keeps_largest "title"
     [⟨"title.mp4", 10⟩, ⟨"title.f136.mp4", 7⟩, ⟨"unrelated.txt", 1⟩]
     ⟨"title.mp4", 10⟩ (by decide) (by decide) (by decide) (by decide)).2.2⟩
